import Mathlib

/-!
Verification of the NeuroPathBP perceptron branch predictor
(src/predictor/neuropath.cc) against its natural-language specification.

Shallow embedding conventions:
* C++ `unsigned` (32-bit) values are `Nat` below 2^32; every arithmetic
  operation that can wrap is taken modulo 2^32 (`U32`).
* The conversion of an `unsigned` sum to `int` (the `y_out` lines) is the
  twos-complement reinterpretation `asInt`.
* `std::vector` becomes `List Nat`; `v[i]` reads become `List.getD` with
  default 0 and writes become `List.set` (all in-bounds in the source, so
  the defaults are never observed on well-formed states).
* The companion header `neuropath.hh` is not in the repository snapshot
  (src/unnamed/part_000 is a header of a sibling predictor class).  The
  member declarations visible in the .cc fix `weightsTable` as
  `vector<vector<unsigned>>`, `SR`, `R` as `vector<unsigned>` and
  `saturatedUpdate` as `unsigned (unsigned, bool)`.  The sibling header
  declares the history members as plain `unsigned`; with `max_weight` and
  `min_weight` declared as any 32-bit integer type (`int` or `unsigned`),
  the C++ usual arithmetic conversions make both comparisons inside
  `saturatedUpdate` unsigned comparisons, which is what is modelled here:
  the negative `min_weight = -(max_weight+1)` participates as the unsigned
  value `2^32 - (max_weight+1)`.
* `isPowerOf2`, `ceilLog2` and `mask` are gem5 library helpers
  (base/intmath.hh, base/bitfield.hh), external to this repository; they
  are modelled with their standard meanings.
-/

namespace NeuroPath

/-- 2^32, the modulus of C++ `unsigned` arithmetic on the build targets of
this code. -/
def U32 : Nat := 2 ^ 32

/-- Unsigned 32-bit addition (wrapping). -/
def uadd (a b : Nat) : Nat := (a % U32 + b % U32) % U32

/-- Unsigned 32-bit subtraction (wrapping). -/
def usub (a b : Nat) : Nat := (a % U32 + (U32 - b % U32)) % U32

/-- Reinterpretation of an `unsigned` value as a C++ `int`
(twos-complement, as on every platform gem5 targets). -/
def asInt (n : Nat) : Int := if n % U32 < 2 ^ 31 then (n % U32 : Int) else (n % U32 : Int) - (U32 : Int)

/-- Value an `int` takes when converted to `unsigned` by the C++ usual
arithmetic conversions. -/
def intToU32 (i : Int) : Nat := (i % (U32 : Int)).toNat

/-- gem5 `isPowerOf2` from base/intmath.hh (library code outside this
repository): `n && !(n & (n - 1))`. -/
def isPowerOf2 (n : Nat) : Bool := decide (n ≠ 0) && decide (n &&& (n - 1) = 0)

/-- Fuelled base-2 logarithm: structurally recursive so that concrete
configurations evaluate inside the kernel.  `np_log2_eq` below shows it
agrees with `Nat.log2`. -/
def log2fuel : Nat → Nat → Nat
  | 0, _ => 0
  | fuel + 1, n => if 2 ≤ n then log2fuel fuel (n / 2) + 1 else 0

/-- Base-2 logarithm (floor), computable by kernel reduction. -/
def np_log2 (n : Nat) : Nat := log2fuel n n

/-- gem5 `ceilLog2` from base/intmath.hh (library code outside this
repository): the ceiling of the base-2 logarithm. -/
def ceilLog2 (n : Nat) : Nat := if n ≤ 1 then 0 else np_log2 (n - 1) + 1

/-- `perceptronCount = 10`, set in the constructor (neuropath.cc line 47). -/
def perceptronCount : Nat := 10

/-- `globalHistoryBits = ceilLog2(params->globalPredictorSize)`
(neuropath.cc line 20).  `H` is `globalPredictorSize` throughout. -/
def globalHistoryBits (H : Nat) : Nat := ceilLog2 H

/-- `globalHistoryMask = globalPredictorSize - 1` (line 28), stored in an
`unsigned` member. -/
def globalHistoryMask (H : Nat) : Nat := (H - 1) % U32

/-- `historyRegisterMask = mask(globalHistoryBits)` (line 31), with gem5
`mask(b) = (1 << b) - 1`, stored in an `unsigned` member. -/
def historyRegisterMask (H : Nat) : Nat := (2 ^ globalHistoryBits H - 1) % U32

/-- `theta = 2.14 * (globalPredictorSize + 1) + 20.58` (line 51), truncated
to an integer at configuration time (spec section 4.3); computed here as an
exact rational floor. -/
def theta (H : Nat) : Nat := (214 * (H + 1) + 2058) / 100

/-- `max_weight = (1 << (globalHistoryBits - 1)) - 1` (line 58).  For
`globalHistoryBits = 0` the C++ shift is undefined behaviour; the Nat
truncated subtraction used here gives `0` there, and no claim is settled at
that configuration. -/
def max_weight (H : Nat) : Nat := 2 ^ (globalHistoryBits H - 1) - 1

/-- `min_weight = -(max_weight + 1)` (line 59), as a mathematical integer. -/
def min_weight (H : Nat) : Int := -((max_weight H : Int) + 1)

/-- `NeuroPathBP::saturatedUpdate` (lines 78-83).  `weight` is `unsigned`,
so both guards are unsigned comparisons: `max_weight` participates with its
own (non-negative) value and the negative `min_weight` participates as
`2^32 + min_weight`. -/
def saturatedUpdate (H : Nat) (weight : Nat) (inc : Bool) : Nat :=
  if inc && decide (weight < max_weight H) then uadd weight 1
  else if !inc && decide (intToU32 (min_weight H) < weight) then usub weight 1
  else weight

/-- The `BPHistory` record created by `lookup`/`uncondBranch`.  The source
leaves `globalUsed` uninitialized in `lookup`; it is defaulted to `false`
here and never read by any modelled operation. -/
structure BPHistory where
  globalHistory : Nat
  globalPredTaken : Bool
  globalUsed : Bool
  deriving DecidableEq, Repr

/-- The mutable engine state of `NeuroPathBP`: per-thread committed (`G`)
and speculative (`SG`) history registers, committed (`R`) and speculative
(`SR`) partial-sum ledgers, the weight table and the path history. -/
structure NPState where
  G : List Nat
  SG : List Nat
  SR : List Nat
  R : List Nat
  weightsTable : List (List Nat)
  path : List Nat
  deriving DecidableEq, Repr

/-- The zero-initialized state the constructor (lines 15-60) builds when
its validation passes: histories, ledgers and weights all zero, path
empty. -/
def initState (H numThreads : Nat) : NPState :=
  { G := List.replicate numThreads 0
    SG := List.replicate numThreads 0
    SR := List.replicate (H + 1) 0
    R := List.replicate (H + 1) 0
    weightsTable := List.replicate perceptronCount (List.replicate (H + 1) 0)
    path := [] }

/-- Constructor parameters consumed from the (excluded) configuration
collaborator. -/
structure NeuroPathBPParams where
  globalPredictorSize : Nat
  numThreads : Nat

/-- `NeuroPathBP::NeuroPathBP` (lines 15-60): `none` models a `fatal(...)`
configuration abort; the two checks are evaluated in source order. -/
def construct (params : NeuroPathBPParams) : Option NPState :=
  if !isPowerOf2 params.globalPredictorSize then none
  else if globalHistoryMask params.globalPredictorSize > historyRegisterMask params.globalPredictorSize then none
  else some (initState params.globalPredictorSize params.numThreads)

/-- `NeuroPathBP::updatePath` (lines 69-76): insert the address at the
front; if the length exceeds `H + 1`, drop the back entry. -/
def updatePath (H : Nat) (path : List Nat) (branch_addr : Nat) : List Nat :=
  let p := branch_addr :: path
  if p.length > H + 1 then p.dropLast else p

/-- The two-line history-register advance used identically at lines
118-119 (`SG` in `lookup`), 134-135 (`SG` in `uncondBranch`) and 166-167
(`G` in `update`): shift left, or in the outcome bit, mask. -/
def stepG (H : Nat) (g : Nat) (bit : Bool) : Nat :=
  (((g <<< 1) % U32) ||| bit.toNat) &&& historyRegisterMask H

/-- Body of one ledger-roll loop iteration (lines 107-113 and 154-160):
`SR_prime[k_j + 1] = SR[k_j]` followed by `+=` or `-=` of
`weightsTable[curPerceptron][j]`, with `k_j = H - j`. -/
def rollVal (H : Nat) (led wrow : List Nat) (taken : Bool) (j : Nat) : Nat :=
  if taken then uadd (led.getD (H - j) 0) (wrow.getD j 0)
  else usub (led.getD (H - j) 0) (wrow.getD j 0)

/-- The ledger roll shared by `lookup` (on `SR`, lines 104-116) and
`update` (on `R`, lines 151-163): zero-initialize a fresh `H + 1` array,
run the loop for `j = 1..H`, assign it back and force index `0` to `0`. -/
def rollLedger (H : Nat) (led wrow : List Nat) (taken : Bool) : List Nat :=
  ((List.range H).foldl
    (fun acc jm1 => acc.set (H - (jm1 + 1) + 1) (rollVal H led wrow taken (jm1 + 1)))
    (List.replicate (H + 1) 0)).set 0 0

/-- The perceptron evaluation `y_out = weightsTable[p][0] + SR[H]`
(lines 94-95 and 145-146): an unsigned sum converted to `int`. -/
def evaluateY (H : Nat) (s : NPState) (p : Nat) : Int :=
  asInt (uadd ((s.weightsTable.getD p []).getD 0 0) (s.SR.getD H 0))

/-- `NeuroPathBP::lookup` (lines 85-121).  Returns the new state, the
prediction and the `BPHistory` record handed back through `bp_history`. -/
def lookup (H : Nat) (s : NPState) (tid branch_addr : Nat) : NPState × Bool × BPHistory :=
  let path1 := updatePath H s.path branch_addr
  let curPerceptron := branch_addr % perceptronCount
  let y_out := evaluateY H s curPerceptron
  let prediction := decide (0 ≤ y_out)
  let history : BPHistory :=
    { globalHistory := s.SG.getD tid 0, globalPredTaken := prediction, globalUsed := false }
  let SR1 := rollLedger H s.SR (s.weightsTable.getD curPerceptron []) prediction
  let SG1 := s.SG.set tid (stepG H (s.SG.getD tid 0) prediction)
  ({ s with path := path1, SR := SR1, SG := SG1 }, prediction, history)

/-- `NeuroPathBP::uncondBranch` (lines 123-136): record the pre-advance
speculative history with a forced taken prediction, push the pc on the
path, advance the speculative history with a `1` bit. -/
def uncondBranch (H : Nat) (s : NPState) (tid pc : Nat) : NPState × BPHistory :=
  let history : BPHistory :=
    { globalHistory := s.SG.getD tid 0, globalPredTaken := true, globalUsed := true }
  let path1 := updatePath H s.path pc
  let SG1 := s.SG.set tid (stepG H (s.SG.getD tid 0) true)
  ({ s with path := path1, SG := SG1 }, history)

/-- One iteration of the learning loop (lines 181-186):
`k = path[j % path.size()] % perceptronCount` and
`weightsTable[k][j] = saturatedUpdate(weightsTable[k][j],
((thread_history >> j) & 1) == taken)`.  An empty path makes
`j % path.size()` undefined behaviour in C++; the Lean convention
`j % 0 = j` stands in for it, and claim C9 shows the engine never reaches
the loop with an empty path after a history push. -/
def learnStep (H : Nat) (pathList : List Nat) (thread_history : Nat) (taken : Bool)
    (wt : List (List Nat)) (j : Nat) : List (List Nat) :=
  let k := (pathList.getD (j % pathList.length) 0) % perceptronCount
  let row := wt.getD k []
  wt.set k (row.set j (saturatedUpdate H (row.getD j 0)
    (decide ((thread_history >>> j) &&& 1 = taken.toNat)) ))

/-- `NeuroPathBP::update` (lines 138-188): recompute `y_out` against the
current speculative ledger, roll the committed ledger with the confirmed
outcome, advance the committed history, and, when `squashed` or
`|y_out| <= theta`, restore speculative state (if squashed) and run the
learning rule. -/
def update (H : Nat) (s : NPState) (tid branch_addr : Nat) (taken squashed : Bool) : NPState :=
  let curPerceptron := branch_addr % perceptronCount
  let y_out := evaluateY H s curPerceptron
  let thread_history := s.SG.getD tid 0
  let R1 := rollLedger H s.R (s.weightsTable.getD curPerceptron []) taken
  let G1 := s.G.set tid (stepG H (s.G.getD tid 0) taken)
  let s1 := { s with R := R1, G := G1 }
  if squashed || decide (y_out.natAbs ≤ theta H) then
    let s2 :=
      if squashed then { s1 with SG := s1.SG.set tid (s1.G.getD tid 0), SR := R1 } else s1
    let row := s2.weightsTable.getD curPerceptron []
    let wt0 := s2.weightsTable.set curPerceptron
      (row.set 0 (saturatedUpdate H (row.getD 0 0) taken))
    let wt1 := (List.range H).foldl
      (fun acc jm1 => learnStep H s2.path thread_history taken acc (jm1 + 1)) wt0
    { s2 with weightsTable := wt1 }
  else s1

/-- `NeuroPathBP::squash` (lines 190-204): restore `SG[tid]` from `G[tid]`
and `SR` from `R`; the record is deallocated (no state effect). -/
def squash (s : NPState) (tid : Nat) : NPState :=
  { s with SG := s.SG.set tid (s.G.getD tid 0), SR := s.R }

/-- `NeuroPathBP::btbUpdate` (lines 62-67):
`G[tid] &= (historyRegisterMask & ~ULL(1))`, with `~ULL(1) = 2^64 - 2`. -/
def btbUpdate (H : Nat) (s : NPState) (tid branch_addr : Nat) : NPState :=
  let g1 := s.G.getD tid 0 &&& (historyRegisterMask H &&& (2 ^ 64 - 2))
  { s with G := s.G.set tid g1 }

/-- `NeuroPathBP::getGHR` (lines 206-210): pure accessor of the history
captured in the record. -/
def getGHR (history : BPHistory) : Nat := history.globalHistory

/-- The engine calls available to the owning pipeline, for trace-level
claims. -/
inductive Op where
  | look (tid branch_addr : Nat)
  | uncond (tid pc : Nat)
  | upd (tid branch_addr : Nat) (taken squashed : Bool)
  | sq (tid : Nat)
  | btb (tid branch_addr : Nat)
  deriving DecidableEq, Repr

/-- State transition of one engine call. -/
def runOp (H : Nat) (s : NPState) : Op → NPState
  | Op.look tid addr => (lookup H s tid addr).1
  | Op.uncond tid pc => (uncondBranch H s tid pc).1
  | Op.upd tid addr taken squashed => update H s tid addr taken squashed
  | Op.sq tid => squash s tid
  | Op.btb tid addr => btbUpdate H s tid addr

/-- Run a sequence of engine calls, oldest first. -/
def run (H : Nat) (s : NPState) (ops : List Op) : NPState := ops.foldl (runOp H) s

/-- The two operations that push onto the path history and advance only
speculative state: `lookup` and `uncondBranch`. -/
def isSpecOp : Op → Bool
  | Op.look _ _ => true
  | Op.uncond _ _ => true
  | _ => false

/-- Operations allowed between the updates of claim C3: any speculative
`lookup`, or an `update` for the given thread with `squashed = false`. -/
def isC3Op (tid : Nat) : Op → Bool
  | Op.look _ _ => true
  | Op.upd t _ _ squashed => decide (t = tid) && !squashed
  | _ => false

/-- The outcome bits reported by the `update` calls of a trace, oldest
first. -/
def outcomes (ops : List Op) : List Bool :=
  ops.filterMap (fun op => match op with
    | Op.upd _ _ taken _ => some taken
    | _ => none)

/- ------------------------------------------------------------------ -/
/- List helper lemmas (self-contained, used across several claims).    -/
/- ------------------------------------------------------------------ -/

theorem np_getD_set_self : ∀ (l : List Nat) (i v : Nat), i < l.length → (l.set i v).getD i 0 = v
  | [], i, v, h => by simp at h
  | _ :: _, 0, v, _ => rfl
  | a :: l, i + 1, v, h => by
      show (a :: l.set i v).getD (i + 1) 0 = v
      rw [List.getD_cons_succ]
      exact np_getD_set_self l i v (by simpa using h)

theorem np_getD_set_ne : ∀ (l : List Nat) (i j v : Nat), i ≠ j → (l.set i v).getD j 0 = l.getD j 0
  | [], _, _, _, _ => rfl
  | _ :: _, 0, 0, _, h => absurd rfl h
  | a :: l, 0, j + 1, v, _ => by
      show (v :: l).getD (j + 1) 0 = (a :: l).getD (j + 1) 0
      rw [List.getD_cons_succ, List.getD_cons_succ]
  | a :: l, i + 1, 0, v, _ => rfl
  | a :: l, i + 1, j + 1, v, h => by
      show (a :: l.set i v).getD (j + 1) 0 = (a :: l).getD (j + 1) 0
      rw [List.getD_cons_succ, List.getD_cons_succ]
      exact np_getD_set_ne l i j v (by omega)

theorem np_getD_oob : ∀ (l : List Nat) (i : Nat), l.length ≤ i → l.getD i 0 = 0
  | [], i, _ => by cases i <;> rfl
  | a :: l, i + 1, h => by
      rw [List.getD_cons_succ]
      exact np_getD_oob l i (by simpa using h)

theorem np_set_oob : ∀ (l : List Nat) (i v : Nat), l.length ≤ i → l.set i v = l
  | [], _, _, _ => rfl
  | a :: l, i + 1, v, h => by
      show a :: l.set i v = a :: l
      rw [np_set_oob l i v (by simpa using h)]

theorem np_log2fuel_eq : ∀ (fuel n : Nat), n ≤ fuel → log2fuel fuel n = Nat.log2 n
  | 0, n, h => by
      have hn : n = 0 := by omega
      subst hn
      rw [log2fuel, Nat.log2]
      rw [if_neg (by omega : ¬(0 : Nat) ≥ 2)]
  | fuel + 1, n, h => by
      rw [log2fuel]
      by_cases h2 : 2 ≤ n
      · rw [if_pos h2, np_log2fuel_eq fuel (n / 2) (by omega)]
        conv_rhs => rw [Nat.log2]
        rw [if_pos h2]
      · rw [if_neg h2]
        conv_rhs => rw [Nat.log2]
        rw [if_neg h2]

theorem np_log2_eq (n : Nat) : np_log2 n = Nat.log2 n := np_log2fuel_eq n n le_rfl

theorem np_getD_replicate_zero : ∀ (n i : Nat), (List.replicate n 0).getD i 0 = 0
  | 0, i => by cases i <;> rfl
  | n + 1, 0 => rfl
  | n + 1, i + 1 => by
      show (List.replicate n 0).getD i 0 = 0
      exact np_getD_replicate_zero n i

/- ------------------------------------------------------------------ -/
/- Characterization of the ledger-roll loop.                           -/
/- ------------------------------------------------------------------ -/

theorem np_loopSet_length (H : Nat) (f : Nat → Nat) :
    ∀ (m : Nat),
      ((List.range m).foldl (fun acc jm1 => acc.set (H - (jm1 + 1) + 1) (f (jm1 + 1)))
        (List.replicate (H + 1) 0)).length = H + 1
  | 0 => by simp
  | m + 1 => by
      rw [List.range_succ, List.foldl_append, List.foldl_cons, List.foldl_nil,
        List.length_set]
      exact np_loopSet_length H f m

theorem np_loopSet_getD (H : Nat) (f : Nat → Nat) :
    ∀ (m : Nat), m ≤ H → ∀ (i : Nat),
      ((List.range m).foldl (fun acc jm1 => acc.set (H - (jm1 + 1) + 1) (f (jm1 + 1)))
        (List.replicate (H + 1) 0)).getD i 0
        = if H - m < i ∧ i ≤ H then f (H - i + 1) else 0
  | 0, _, i => by
      rw [List.range_zero, List.foldl_nil, np_getD_replicate_zero]
      rw [if_neg (by omega)]
  | m + 1, h, i => by
      rw [List.range_succ, List.foldl_append, List.foldl_cons, List.foldl_nil]
      by_cases hi : i = H - (m + 1) + 1
      · subst hi
        rw [np_getD_set_self _ _ _ (by rw [np_loopSet_length]; omega)]
        rw [if_pos (by omega)]
        have hj : H - (H - (m + 1) + 1) + 1 = m + 1 := by omega
        rw [hj]
      · rw [np_getD_set_ne _ _ _ _ (by omega)]
        rw [np_loopSet_getD H f m (by omega) i]
        split_ifs <;> first | rfl | omega

theorem np_rollLedger_length (H : Nat) (led wrow : List Nat) (taken : Bool) :
    (rollLedger H led wrow taken).length = H + 1 := by
  unfold rollLedger
  rw [List.length_set]
  exact np_loopSet_length H (rollVal H led wrow taken) H

theorem np_rollLedger_getD_zero (H : Nat) (led wrow : List Nat) (taken : Bool) :
    (rollLedger H led wrow taken).getD 0 0 = 0 := by
  unfold rollLedger
  exact np_getD_set_self _ _ _ (by rw [np_loopSet_length]; omega)

theorem np_rollLedger_getD (H : Nat) (led wrow : List Nat) (taken : Bool) (j : Nat)
    (h1 : 1 ≤ j) (h2 : j ≤ H) :
    (rollLedger H led wrow taken).getD (H - j + 1) 0 = rollVal H led wrow taken j := by
  unfold rollLedger
  rw [np_getD_set_ne _ _ _ _ (by omega)]
  rw [np_loopSet_getD H (rollVal H led wrow taken) H le_rfl]
  rw [if_pos (by omega)]
  have hj : H - (H - j + 1) + 1 = j := by omega
  rw [hj]

/- ------------------------------------------------------------------ -/
/- Frame lemmas for the individual operations.                         -/
/- ------------------------------------------------------------------ -/

theorem np_run_cons (H : Nat) (s : NPState) (op : Op) (rest : List Op) :
    run H s (op :: rest) = run H (runOp H s op) rest := rfl

theorem np_lookup_G (H : Nat) (s : NPState) (tid addr : Nat) :
    (lookup H s tid addr).1.G = s.G := rfl

theorem np_lookup_SG_length (H : Nat) (s : NPState) (tid addr : Nat) :
    (lookup H s tid addr).1.SG.length = s.SG.length := List.length_set ..

theorem np_uncond_G (H : Nat) (s : NPState) (tid pc : Nat) :
    (uncondBranch H s tid pc).1.G = s.G := rfl

theorem np_uncond_SG_length (H : Nat) (s : NPState) (tid pc : Nat) :
    (uncondBranch H s tid pc).1.SG.length = s.SG.length := List.length_set ..

theorem np_update_G (H : Nat) (s : NPState) (tid addr : Nat) (taken squashed : Bool) :
    (update H s tid addr taken squashed).G = s.G.set tid (stepG H (s.G.getD tid 0) taken) := by
  cases squashed with
  | false =>
      by_cases hy : (evaluateY H s (addr % perceptronCount)).natAbs ≤ theta H
      · simp [update, hy]
      · simp [update, hy]
  | true => simp [update]

theorem np_update_path (H : Nat) (s : NPState) (tid addr : Nat) (taken squashed : Bool) :
    (update H s tid addr taken squashed).path = s.path := by
  cases squashed with
  | false =>
      by_cases hy : (evaluateY H s (addr % perceptronCount)).natAbs ≤ theta H
      · simp [update, hy]
      · simp [update, hy]
  | true => simp [update]

theorem np_updatePath_pos (H : Nat) (p : List Nat) (addr : Nat) :
    1 ≤ (updatePath H p addr).length := by
  show 1 ≤ (if (addr :: p).length > H + 1 then (addr :: p).dropLast else addr :: p).length
  by_cases hlen : (addr :: p).length > H + 1
  · rw [if_pos hlen, List.length_dropLast]
    simp only [List.length_cons] at hlen ⊢
    omega
  · rw [if_neg hlen]
    simp

theorem np_updatePath_le (H : Nat) (p : List Nat) (addr : Nat) (h : p.length ≤ H + 1) :
    (updatePath H p addr).length ≤ H + 1 := by
  show (if (addr :: p).length > H + 1 then (addr :: p).dropLast else addr :: p).length ≤ H + 1
  by_cases hlen : (addr :: p).length > H + 1
  · rw [if_pos hlen, List.length_dropLast]
    simp only [List.length_cons] at hlen ⊢
    omega
  · rw [if_neg hlen]
    simp only [List.length_cons] at hlen ⊢
    omega

theorem np_runOp_path_le (H : Nat) (s : NPState) (op : Op) (h : s.path.length ≤ H + 1) :
    (runOp H s op).path.length ≤ H + 1 := by
  cases op with
  | look tid addr => exact np_updatePath_le H s.path addr h
  | uncond tid pc => exact np_updatePath_le H s.path pc h
  | upd tid addr taken squashed => rw [runOp, np_update_path]; exact h
  | sq tid => exact h
  | btb tid addr => exact h

theorem np_runOp_path_pos (H : Nat) (s : NPState) (op : Op) (h : 1 ≤ s.path.length) :
    1 ≤ (runOp H s op).path.length := by
  cases op with
  | look tid addr => exact np_updatePath_pos H s.path addr
  | uncond tid pc => exact np_updatePath_pos H s.path pc
  | upd tid addr taken squashed => rw [runOp, np_update_path]; exact h
  | sq tid => exact h
  | btb tid addr => exact h

theorem np_run_path_le (H : Nat) :
    ∀ (ops : List Op) (s : NPState), s.path.length ≤ H + 1 →
      (run H s ops).path.length ≤ H + 1
  | [], _, h => h
  | op :: rest, s, h =>
      np_run_path_le H rest (runOp H s op) (np_runOp_path_le H s op h)

theorem np_run_path_pos (H : Nat) :
    ∀ (ops : List Op) (s : NPState), 1 ≤ s.path.length →
      1 ≤ (run H s ops).path.length
  | [], _, h => h
  | op :: rest, s, h =>
      np_run_path_pos H rest (runOp H s op) (np_runOp_path_pos H s op h)

theorem np_run_push_pos (H : Nat) :
    ∀ (ops : List Op) (s : NPState), (∃ op ∈ ops, isSpecOp op = true) →
      1 ≤ (run H s ops).path.length := by
  intro ops
  induction ops with
  | nil => intro s h; obtain ⟨op, hmem, _⟩ := h; simp at hmem
  | cons op rest ih =>
      intro s h
      obtain ⟨op0, hmem, hpush⟩ := h
      rcases List.mem_cons.mp hmem with heq | hmem2
      · subst heq
        rw [np_run_cons]
        apply np_run_path_pos
        cases op0 with
        | look tid addr => exact np_updatePath_pos H s.path addr
        | uncond tid pc => exact np_updatePath_pos H s.path pc
        | upd tid addr taken squashed => simp [isSpecOp] at hpush
        | sq tid => simp [isSpecOp] at hpush
        | btb tid addr => simp [isSpecOp] at hpush
      · exact ih (runOp H s op) ⟨op0, hmem2, hpush⟩

theorem np_run_spec_G (H : Nat) :
    ∀ (ops : List Op) (s : NPState), (∀ op ∈ ops, isSpecOp op = true) →
      (run H s ops).G = s.G ∧ (run H s ops).SG.length = s.SG.length := by
  intro ops
  induction ops with
  | nil => intro s _; exact ⟨rfl, rfl⟩
  | cons op rest ih =>
      intro s h
      have hop := h op (List.mem_cons_self op rest)
      have hrest : ∀ o ∈ rest, isSpecOp o = true := fun o ho => h o (List.mem_cons_of_mem op ho)
      cases op with
      | look tid addr =>
          obtain ⟨h1, h2⟩ := ih ((lookup H s tid addr).1) hrest
          exact ⟨by rw [np_run_cons]; rw [show runOp H s (Op.look tid addr) = (lookup H s tid addr).1 from rfl]; rw [h1, np_lookup_G],
            by rw [np_run_cons]; rw [show runOp H s (Op.look tid addr) = (lookup H s tid addr).1 from rfl]; rw [h2, np_lookup_SG_length]⟩
      | uncond tid pc =>
          obtain ⟨h1, h2⟩ := ih ((uncondBranch H s tid pc).1) hrest
          exact ⟨by rw [np_run_cons]; rw [show runOp H s (Op.uncond tid pc) = (uncondBranch H s tid pc).1 from rfl]; rw [h1, np_uncond_G],
            by rw [np_run_cons]; rw [show runOp H s (Op.uncond tid pc) = (uncondBranch H s tid pc).1 from rfl]; rw [h2, np_uncond_SG_length]⟩
      | upd tid addr taken squashed => simp [isSpecOp] at hop
      | sq tid => simp [isSpecOp] at hop
      | btb tid addr => simp [isSpecOp] at hop

theorem np_run_C3_G (H tid : Nat) :
    ∀ (ops : List Op) (s : NPState), (∀ op ∈ ops, isC3Op tid op = true) →
      tid < s.G.length →
      (run H s ops).G.getD tid 0 = List.foldl (stepG H) (s.G.getD tid 0) (outcomes ops) := by
  intro ops
  induction ops with
  | nil => intro s _ _; rfl
  | cons op rest ih =>
      intro s h htid
      have hop := h op (List.mem_cons_self op rest)
      have hrest : ∀ o ∈ rest, isC3Op tid o = true := fun o ho => h o (List.mem_cons_of_mem op ho)
      cases op with
      | look t a =>
          rw [np_run_cons]
          have hout : outcomes (Op.look t a :: rest) = outcomes rest := rfl
          rw [hout]
          have := ih ((lookup H s t a).1) hrest (by rw [np_lookup_G]; exact htid)
          rw [show runOp H s (Op.look t a) = (lookup H s t a).1 from rfl, this, np_lookup_G]
      | upd t a tk sq =>
          have hts : t = tid ∧ sq = false := by
            simp [isC3Op] at hop
            exact hop
          obtain ⟨ht, hs⟩ := hts
          subst ht
          subst hs
          rw [np_run_cons]
          have hout : outcomes (Op.upd t a tk false :: rest) = tk :: outcomes rest := rfl
          rw [hout, List.foldl_cons]
          have hlen : t < (update H s t a tk false).G.length := by
            rw [np_update_G, List.length_set]
            exact htid
          have := ih (update H s t a tk false) hrest hlen
          rw [show runOp H s (Op.upd t a tk false) = update H s t a tk false from rfl, this]
          have hbase : (update H s t a tk false).G.getD t 0 = stepG H (s.G.getD t 0) tk := by
            rw [np_update_G]
            exact np_getD_set_self _ _ _ htid
          rw [hbase]
      | uncond t p => simp [isC3Op] at hop
      | sq t => simp [isC3Op] at hop
      | btb t a => simp [isC3Op] at hop

/-- For `H >= 1` below `2^32` (it is stored in an `unsigned`), the mask
comparison of the constructor never fires: `H - 1 <= 2^ceilLog2(H) - 1`. -/
theorem np_mask_le (H : Nat) (h1 : 1 ≤ H) (hH : H < 2 ^ 32) :
    globalHistoryMask H ≤ historyRegisterMask H := by
  have hU : U32 = 4294967296 := by norm_num [U32]
  have h32 : (2 : Nat) ^ 32 = 4294967296 := by norm_num
  unfold globalHistoryMask historyRegisterMask globalHistoryBits ceilLog2
  by_cases hle : H ≤ 1
  · have hone : H = 1 := by omega
    subst hone
    simp
  · rw [if_neg hle]
    have hlog : np_log2 (H - 1) = Nat.log 2 (H - 1) := by
      rw [np_log2_eq]
      exact Nat.log2_eq_log_two
    have hub : H - 1 < 2 ^ (Nat.log 2 (H - 1) + 1) := by
      have := Nat.lt_pow_succ_log_self (b := 2) (by omega) (H - 1)
      simpa using this
    have hlb : 2 ^ Nat.log 2 (H - 1) ≤ H - 1 := Nat.pow_log_le_self 2 (by omega)
    have hlt32 : Nat.log 2 (H - 1) < 32 := by
      by_contra hge
      push_neg at hge
      have hpow : (2 : Nat) ^ 32 ≤ 2 ^ Nat.log 2 (H - 1) := Nat.pow_le_pow_right (by omega) hge
      omega
    have hc : (2 : Nat) ^ (Nat.log 2 (H - 1) + 1) ≤ 2 ^ 32 := Nat.pow_le_pow_right (by omega) (by omega)
    rw [hlog]
    have e1 : (H - 1) % U32 = H - 1 := Nat.mod_eq_of_lt (by omega)
    have e2 : (2 ^ (Nat.log 2 (H - 1) + 1) - 1) % U32 = 2 ^ (Nat.log 2 (H - 1) + 1) - 1 :=
      Nat.mod_eq_of_lt (by omega)
    rw [e1, e2]
    omega

/- ------------------------------------------------------------------ -/
/- The claims.                                                         -/
/- ------------------------------------------------------------------ -/

set_option maxRecDepth 100000 in
/-- C1 (code evaluation at the failing input of the claim scenario):
with `H = 4`, `P = 10`, all weights zero, the first lookup on address 3
predicts taken, and the subsequent `update` with `outcome = false`,
`squashed = false` does trigger the learning step (the position weights of
perceptron 3 become 1), but the bias weight of perceptron 3 stays `0`
instead of becoming `-1` as the claim requires: because `weight` is
`unsigned`, the guard `weight > min_weight` compares `0` with
`2^32 - 2` and the decrement never fires.  All other perceptrons keep an
all-zero row, as shown by the full-table equality. -/
theorem np_C1_eval :
    (lookup 4 (initState 4 1) 0 3).2.1 = true
    ∧ (update 4 (lookup 4 (initState 4 1) 0 3).1 0 3 false false).weightsTable
        = (List.replicate 10 (List.replicate 5 0)).set 3 [0, 1, 1, 1, 1]
    ∧ ((update 4 (lookup 4 (initState 4 1) 0 3).1 0 3 false false).weightsTable.getD 3 []).getD 0 0
        = 0 := by
  decide

set_option maxRecDepth 100000 in
/-- C2 (code evaluation at the failing input): with `H = 4`
(`globalHistoryBits = 2`, `maxWeight = 1`, `minWeight = -2`), the
saturating decrement of weight `0` returns `0`, not the claimed
`max(0 - 1, minWeight) = -1`; and the saturating increment of a stored
`-1` (the unsigned value `2^32 - 1`) is also a no-op, not the claimed
`min(-1 + 1, maxWeight) = 0`.  Both guards of `saturatedUpdate` are
unsigned comparisons because `weight` is `unsigned`. -/
theorem np_C2_eval :
    saturatedUpdate 4 0 false = 0
    ∧ asInt (saturatedUpdate 4 0 false) ≠ -1
    ∧ max_weight 4 = 1
    ∧ min_weight 4 = -2
    ∧ saturatedUpdate 4 (intToU32 (-1)) true = intToU32 (-1) := by
  decide

set_option maxRecDepth 100000 in
/-- C3 counterexample: the claim says the committed history is masked to
the configured width of `H` bits.  With `H = 4` the code masks with
`historyRegisterMask = 2^ceilLog2(4) - 1 = 3` (2 bits), so after a lookup
followed by three non-squashed updates with outcome taken on thread 0 the
committed history is `3`, while shifting the three outcomes into a
register masked to `H = 4` bits gives `7`. -/
theorem np_C3_counter :
    (run 4 (initState 4 1)
        [Op.look 0 3, Op.upd 0 3 true false, Op.upd 0 3 true false, Op.upd 0 3 true false]).G.getD 0 0
      ≠ List.foldl (fun g b => (2 * g + b.toNat) &&& (2 ^ 4 - 1)) 0 [true, true, true] := by
  decide

/-- C3 as amended: for every thread `tid` and every trace consisting of
`update` calls for `tid` with `squashed = false`, arbitrarily interleaved
with speculative `lookup` calls, the committed history afterwards equals
the reported outcomes shifted in oldest first through the code step
(shift left, or in the outcome, mask with
`historyRegisterMask = 2^ceilLog2(H) - 1`), starting from the
zero-initialized register — in particular it is independent of the
interleaved lookups. -/
theorem np_C3_amended (H nt tid : Nat) (ops : List Op)
    (hops : ∀ op ∈ ops, isC3Op tid op = true) (htid : tid < nt) :
    (run H (initState H nt) ops).G.getD tid 0 = List.foldl (stepG H) 0 (outcomes ops) := by
  have hlen : tid < (initState H nt).G.length := by
    simpa [initState] using htid
  have h := np_run_C3_G H tid ops (initState H nt) hops hlen
  have h0 : (initState H nt).G.getD tid 0 = 0 := np_getD_replicate_zero nt tid
  rw [h0] at h
  exact h

/-- Witness for C3 as amended, at the concrete trace of the
counterexample. -/
theorem np_C3_witness :
    (∀ op ∈ [Op.look 0 3, Op.upd 0 3 true false, Op.upd 0 3 true false, Op.upd 0 3 true false],
        isC3Op 0 op = true)
    ∧ 0 < 1
    ∧ (run 4 (initState 4 1)
          [Op.look 0 3, Op.upd 0 3 true false, Op.upd 0 3 true false, Op.upd 0 3 true false]).G.getD 0 0
        = List.foldl (stepG 4) 0
            (outcomes [Op.look 0 3, Op.upd 0 3 true false, Op.upd 0 3 true false, Op.upd 0 3 true false]) :=
  ⟨by decide, by decide, np_C3_amended 4 1 0 _ (by decide) (by decide)⟩

/-- C4: for every thread `tid` and every preceding trace of `lookup` and
`uncondBranch` calls from the initial state, immediately after
`squash(tid)` the speculative history equals the committed history for
that thread and the speculative ledger equals the committed ledger. -/
theorem np_C4 (H nt tid : Nat) (ops : List Op) (hops : ∀ op ∈ ops, isSpecOp op = true) :
    (squash (run H (initState H nt) ops) tid).SG.getD tid 0
      = (squash (run H (initState H nt) ops) tid).G.getD tid 0
    ∧ (squash (run H (initState H nt) ops) tid).SR = (squash (run H (initState H nt) ops) tid).R := by
  obtain ⟨hG, hSGlen⟩ := np_run_spec_G H ops (initState H nt) hops
  refine ⟨?_, rfl⟩
  show ((run H (initState H nt) ops).SG.set tid ((run H (initState H nt) ops).G.getD tid 0)).getD tid 0
      = (run H (initState H nt) ops).G.getD tid 0
  have h0 : (run H (initState H nt) ops).G.getD tid 0 = 0 := by
    rw [hG]
    exact np_getD_replicate_zero nt tid
  rw [h0]
  by_cases htid : tid < (run H (initState H nt) ops).SG.length
  · exact np_getD_set_self _ _ _ htid
  · rw [np_set_oob _ _ _ (by omega)]
    exact np_getD_oob _ _ (by omega)

/-- Witness for C4 at a concrete two-lookup trace. -/
theorem np_C4_witness :
    (∀ op ∈ [Op.look 0 7, Op.uncond 0 9], isSpecOp op = true)
    ∧ ((squash (run 4 (initState 4 1) [Op.look 0 7, Op.uncond 0 9]) 0).SG.getD 0 0
        = (squash (run 4 (initState 4 1) [Op.look 0 7, Op.uncond 0 9]) 0).G.getD 0 0
      ∧ (squash (run 4 (initState 4 1) [Op.look 0 7, Op.uncond 0 9]) 0).SR
        = (squash (run 4 (initState 4 1) [Op.look 0 7, Op.uncond 0 9]) 0).R) :=
  ⟨by decide, np_C4 4 1 0 _ (by decide)⟩

/-- C5: each `lookup(tid, addr)` selects perceptron
`p = addr mod perceptronCount`, returns
`prediction = (evaluate(p) >= 0)` with `evaluate(p)` the bias plus
`SR[H]`, records the pre-advance speculative history and the prediction
in the returned record, performs exactly one speculative ledger roll
(`SR[H-j+1] = SR[H-j] + weights[p][j]` if the prediction is taken,
minus otherwise, for each `j` in `[1, H]`, with `SR[0] = 0`), and
exactly one speculative history advance (shift in the prediction bit,
then mask). -/
theorem np_C5 (H : Nat) (s : NPState) (tid branch_addr : Nat) :
    (lookup H s tid branch_addr).2.1
        = decide (0 ≤ evaluateY H s (branch_addr % perceptronCount))
    ∧ (lookup H s tid branch_addr).2.2.globalHistory = s.SG.getD tid 0
    ∧ (lookup H s tid branch_addr).2.2.globalPredTaken = (lookup H s tid branch_addr).2.1
    ∧ (∀ j, 1 ≤ j → j ≤ H →
        (lookup H s tid branch_addr).1.SR.getD (H - j + 1) 0
          = (if (lookup H s tid branch_addr).2.1
             then uadd (s.SR.getD (H - j) 0)
                ((s.weightsTable.getD (branch_addr % perceptronCount) []).getD j 0)
             else usub (s.SR.getD (H - j) 0)
                ((s.weightsTable.getD (branch_addr % perceptronCount) []).getD j 0)))
    ∧ (lookup H s tid branch_addr).1.SR.getD 0 0 = 0
    ∧ (lookup H s tid branch_addr).1.SR.length = H + 1
    ∧ (lookup H s tid branch_addr).1.SG
        = s.SG.set tid (stepG H (s.SG.getD tid 0) (lookup H s tid branch_addr).2.1)
    ∧ (lookup H s tid branch_addr).1.path = updatePath H s.path branch_addr := by
  refine ⟨rfl, rfl, rfl, ?_, ?_, ?_, rfl, rfl⟩
  · intro j h1 h2
    exact np_rollLedger_getD H s.SR (s.weightsTable.getD (branch_addr % perceptronCount) [])
      (decide (0 ≤ evaluateY H s (branch_addr % perceptronCount))) j h1 h2
  · exact np_rollLedger_getD_zero H s.SR (s.weightsTable.getD (branch_addr % perceptronCount) [])
      (decide (0 ≤ evaluateY H s (branch_addr % perceptronCount)))
  · exact np_rollLedger_length H s.SR (s.weightsTable.getD (branch_addr % perceptronCount) [])
      (decide (0 ≤ evaluateY H s (branch_addr % perceptronCount)))

/-- C6: from the fresh single-threaded state, a `lookup` immediately
followed by a `squash` with the returned record leaves both ledgers and
both history registers identical to their values before the `lookup`. -/
theorem np_C6 (H branch_addr : Nat) :
    (squash (lookup H (initState H 1) 0 branch_addr).1 0).SR = (initState H 1).SR
    ∧ (squash (lookup H (initState H 1) 0 branch_addr).1 0).R = (initState H 1).R
    ∧ (squash (lookup H (initState H 1) 0 branch_addr).1 0).SG = (initState H 1).SG
    ∧ (squash (lookup H (initState H 1) 0 branch_addr).1 0).G = (initState H 1).G :=
  ⟨rfl, rfl, rfl, rfl⟩

/-- C7: whenever the perceptron evaluation
`y = weights[p][0] + SR[H]` satisfies `|y| > theta` and
`squashed = false`, the `update` call leaves the entire weight table
unchanged. -/
theorem np_C7 (H : Nat) (s : NPState) (tid branch_addr : Nat) (taken : Bool)
    (h : theta H < (evaluateY H s (branch_addr % perceptronCount)).natAbs) :
    (update H s tid branch_addr taken false).weightsTable = s.weightsTable := by
  have hy : ¬ (evaluateY H s (branch_addr % perceptronCount)).natAbs ≤ theta H := by omega
  simp [update, hy]

/-- Witness for C7 at a concrete state whose speculative ledger makes the
evaluation exceed `theta 4 = 31`. -/
theorem np_C7_witness :
    theta 4 < (evaluateY 4
        ⟨[0], [0], [0, 0, 0, 0, 100], [0, 0, 0, 0, 0],
          List.replicate 10 (List.replicate 5 0), [3]⟩ (3 % perceptronCount)).natAbs
    ∧ (update 4
        ⟨[0], [0], [0, 0, 0, 0, 100], [0, 0, 0, 0, 0],
          List.replicate 10 (List.replicate 5 0), [3]⟩ 0 3 true false).weightsTable
      = NPState.weightsTable
        ⟨[0], [0], [0, 0, 0, 0, 100], [0, 0, 0, 0, 0],
          List.replicate 10 (List.replicate 5 0), [3]⟩ :=
  ⟨by decide,
   np_C7 4
     ⟨[0], [0], [0, 0, 0, 0, 100], [0, 0, 0, 0, 0],
       List.replicate 10 (List.replicate 5 0), [3]⟩ 0 3 true (by decide)⟩

/-- C8: for any `globalPredictorSize` `H` (stored in an `unsigned`, hence
below `2^32`), construction aborts fatally exactly when `H` is not a
power of two; whenever `H` is a power of two the mask check
`globalHistoryMask > historyRegisterMask` cannot fire either, and
construction succeeds with zero-initialized histories, ledgers and
weights and an empty path. -/
theorem np_C8 (H nt : Nat) (hH : H < 2 ^ 32) :
    ((construct ⟨H, nt⟩ = none) ↔ isPowerOf2 H = false)
    ∧ (isPowerOf2 H = true → construct ⟨H, nt⟩ = some (initState H nt))
    ∧ (initState H nt).G = List.replicate nt 0
    ∧ (initState H nt).SG = List.replicate nt 0
    ∧ (initState H nt).SR = List.replicate (H + 1) 0
    ∧ (initState H nt).R = List.replicate (H + 1) 0
    ∧ (initState H nt).weightsTable = List.replicate perceptronCount (List.replicate (H + 1) 0)
    ∧ (initState H nt).path = [] := by
  have hsucc : isPowerOf2 H = true → construct ⟨H, nt⟩ = some (initState H nt) := by
    intro hpow
    have h1 : 1 ≤ H := by
      have hne := (Bool.and_eq_true ..).mp hpow
      have : H ≠ 0 := by simpa using hne.1
      omega
    have hm := np_mask_le H h1 hH
    simp [construct, hpow, Nat.not_lt.mpr hm]
  refine ⟨⟨?_, ?_⟩, hsucc, rfl, rfl, rfl, rfl, rfl, rfl⟩
  · intro hnone
    by_contra hne
    have hpow : isPowerOf2 H = true := by
      cases hEq : isPowerOf2 H
      · exact absurd hEq hne
      · rfl
    rw [hsucc hpow] at hnone
    exact Option.noConfusion hnone
  · intro hfalse
    simp [construct, hfalse]

/-- Witness for C8 at `H = 4`, `nt = 2`. -/
theorem np_C8_witness :
    4 < 2 ^ 32
    ∧ (((construct ⟨4, 2⟩ = none) ↔ isPowerOf2 4 = false)
      ∧ (isPowerOf2 4 = true → construct ⟨4, 2⟩ = some (initState 4 2))
      ∧ (initState 4 2).G = List.replicate 2 0
      ∧ (initState 4 2).SG = List.replicate 2 0
      ∧ (initState 4 2).SR = List.replicate (4 + 1) 0
      ∧ (initState 4 2).R = List.replicate (4 + 1) 0
      ∧ (initState 4 2).weightsTable = List.replicate perceptronCount (List.replicate (4 + 1) 0)
      ∧ (initState 4 2).path = []) :=
  ⟨by decide, np_C8 4 2 (by decide)⟩

/-- C9: starting from the initial (empty-path) state, after any trace
containing at least one `lookup` or `uncondBranch` (the operations that
push onto the path), the path history is non-empty — so the modulo
`j % path.size()` taken by the learning loop of any subsequent `update`
has a non-zero divisor — and the path length never exceeds `H + 1`. -/
theorem np_C9 (H nt : Nat) (ops : List Op) (hpush : ∃ op ∈ ops, isSpecOp op = true) :
    1 ≤ (run H (initState H nt) ops).path.length
    ∧ (run H (initState H nt) ops).path.length ≤ H + 1 :=
  ⟨np_run_push_pos H ops (initState H nt) hpush,
   np_run_path_le H ops (initState H nt) (Nat.zero_le (H + 1))⟩

/-- Witness for C9 at a concrete lookup-then-update trace. -/
theorem np_C9_witness :
    (∃ op ∈ [Op.look 0 5, Op.upd 0 5 true false], isSpecOp op = true)
    ∧ (1 ≤ (run 4 (initState 4 1) [Op.look 0 5, Op.upd 0 5 true false]).path.length
      ∧ (run 4 (initState 4 1) [Op.look 0 5, Op.upd 0 5 true false]).path.length ≤ 4 + 1) :=
  ⟨by decide, np_C9 4 1 _ (by decide)⟩

/-- C10: `btbUpdate(tid, addr)` replaces `G[tid]` by
`G[tid] AND historyRegisterMask AND NOT 1` and changes no other engine
state (speculative history, both ledgers, weight table and path are all
untouched); in particular the least-significant bit of the committed
history register at `tid` is cleared afterwards. -/
theorem np_C10 (H : Nat) (s : NPState) (tid branch_addr : Nat) :
    (btbUpdate H s tid branch_addr).G
        = s.G.set tid (s.G.getD tid 0 &&& (historyRegisterMask H &&& (2 ^ 64 - 2)))
    ∧ (btbUpdate H s tid branch_addr).SG = s.SG
    ∧ (btbUpdate H s tid branch_addr).SR = s.SR
    ∧ (btbUpdate H s tid branch_addr).R = s.R
    ∧ (btbUpdate H s tid branch_addr).weightsTable = s.weightsTable
    ∧ (btbUpdate H s tid branch_addr).path = s.path
    ∧ (btbUpdate H s tid branch_addr).G.getD tid 0 &&& 1 = 0 := by
  refine ⟨rfl, rfl, rfl, rfl, rfl, rfl, ?_⟩
  show (s.G.set tid (s.G.getD tid 0 &&& (historyRegisterMask H &&& (2 ^ 64 - 2)))).getD tid 0 &&& 1 = 0
  by_cases htid : tid < s.G.length
  · rw [np_getD_set_self _ _ _ htid]
    rw [Nat.land_assoc, Nat.land_assoc]
    have hE : ((2 : Nat) ^ 64 - 2) &&& 1 = 0 := by decide
    rw [hE, Nat.and_zero, Nat.and_zero]
  · rw [np_set_oob _ _ _ (by omega), np_getD_oob _ _ (by omega)]
    decide

end NeuroPath
